import Mathlib

/-!
Shallow embedding of the messaging layer of the `cereal` repository
(`src/messaging/__init__.py`): the subscriber-side aggregator `SubMaster`,
the publisher-side `wait_for_readers_to_update` primitive, the drain
utilities, and the `new_message` envelope helper.

Modelling conventions:
* Python floats (monotonic timestamps, frequencies, inter-arrival deltas)
  are modelled by `ℚ`.
* Python string-keyed dicts whose key set is fixed at construction are
  modelled as total functions `String → α` together with the list
  `services` of tracked keys; claims quantify over tracked keys.
* The static registry `SERVICE_LIST` (external collaborator `cereal.services`,
  mapping topic name to expected frequency in Hz) is modelled as a parameter
  `freq : String → ℚ`.
* The environment flag `bool(int(os.getenv("SIMULATION", "0")))` is a
  `Bool` parameter of the constructor.
-/

/-- Pointwise update of a string-keyed map, modelling `d[s] = v` on a dict. -/
def upd {α : Type} (f : String → α) (s : String) (v : α) : String → α :=
  fun t => if t = s then v else f t

/-- `AVG_FREQ_HISTORY = 100` (line 25). -/
def AVG_FREQ_HISTORY : Nat := 100

/-- Append on a `collections.deque` with `maxlen`: the new element goes on the
right and, when the deque is full, the leftmost (oldest) element is evicted. -/
def dequeAppend (maxlen : Nat) (l : List ℚ) (x : ℚ) : List ℚ :=
  let l2 := l ++ [x]
  l2.drop (l2.length - maxlen)

/-- The observable part of a decoded message envelope used by
`SubMaster.update_msgs`: `msg.which()`, `msg.logMonoTime`, `msg.valid`.
The topic-specific payload (`getattr(msg, s)`) is opaque to the health
logic and not modelled. -/
structure Msg where
  which : String
  logMonoTime : Nat
  valid : Bool

/-- State of the subscriber aggregator `SubMaster` (lines 157-270).
The dicts keyed by service name are total functions (see module comment);
`services` records the tracked keys, i.e. the shared key set of the dicts.
The `data` dict holds opaque payloads and is not part of the health state;
its key set equals `services`. The sockets and poller are transport
collaborators and are not modelled. -/
structure SubMaster where
  services : List String
  frame : Int
  updated : String → Bool
  recv_time : String → ℚ
  recv_frame : String → Int
  alive : String → Bool
  freq_ok : String → Bool
  recv_dts : String → List ℚ
  valid : String → Bool
  logMonoTime : String → Nat
  non_polled_services : List String
  ignore_average_freq : List String
  ignore_alive : List String
  ignore_valid : List String

/-- `SubMaster.__init__` (lines 158-196).  `poll`, and the three ignore
lists, are `Optional`; `simulation` is the resolved
`bool(int(os.getenv("SIMULATION", "0")))` flag, which when set overrides
`ignore_alive` and `ignore_average_freq` with the full service list
(lines 180-182).  `self.valid[s] = True` for every service (line 196). -/
def SubMaster.init (services : List String) (poll : Option (List String))
    (ignore_alive ignore_avg_freq ignore_valid : Option (List String))
    (simulation : Bool) : SubMaster :=
  { services := services
    frame := -1
    updated := fun _ => false
    recv_time := fun _ => 0
    recv_frame := fun _ => 0
    alive := fun _ => false
    freq_ok := fun _ => false
    recv_dts := fun _ => []
    valid := fun _ => true
    logMonoTime := fun _ => 0
    non_polled_services := services.filter fun s =>
      match poll with
      | none => false
      | some p => !p.isEmpty && !(decide (s ∈ p))
    ignore_average_freq := if simulation then services else ignore_avg_freq.getD []
    ignore_alive := if simulation then services else ignore_alive.getD []
    ignore_valid := ignore_valid.getD [] }

/-- `SubMaster._check_avg_freq` (lines 201-203): average-frequency checking
applies to `s` iff `recv_time[s] > 1e-5`, the registry frequency is `> 1e-5`,
`s` is polled, and `s` is in neither `ignore_average_freq` nor
`ignore_alive`. -/
def SubMaster.check_avg_freq (freq : String → ℚ) (m : SubMaster) (s : String) : Bool :=
  decide (1/100000 < m.recv_time s) && decide (1/100000 < freq s) &&
    !(decide (s ∈ m.non_polled_services)) && !(decide (s ∈ m.ignore_average_freq)) &&
    !(decide (s ∈ m.ignore_alive))

/-- Body of the per-message loop of `update_msgs` (lines 218-230) for one
non-absent message: mark updated, append the inter-arrival delta to the
bounded deque, and record receive time/frame and envelope metadata. -/
def applyMsg (cur_time : ℚ) (m : SubMaster) (msg : Msg) : SubMaster :=
  { m with
    updated := upd m.updated msg.which true
    recv_dts := upd m.recv_dts msg.which
      (dequeAppend AVG_FREQ_HISTORY (m.recv_dts msg.which) (cur_time - m.recv_time msg.which))
    recv_time := upd m.recv_time msg.which cur_time
    recv_frame := upd m.recv_frame msg.which m.frame
    logMonoTime := upd m.logMonoTime msg.which msg.logMonoTime
    valid := upd m.valid msg.which msg.valid }

/-- Body of the per-service recompute loop of `update_msgs` (lines 232-250)
for one service.  When the registry frequency exceeds `1e-5` the branch
assigns exactly `alive[s]` (staleness test) and `freq_ok[s]` (the
average-rate test when `_check_avg_freq` holds, else default true); the
`alive` assignment happens before the `_check_avg_freq` call in the source,
but `_check_avg_freq` does not read `alive`, so one simultaneous record
update is equivalent.  Otherwise both flags are set to true. -/
def recomputeService (freq : String → ℚ) (cur_time : ℚ) (m : SubMaster) (s : String) :
    SubMaster :=
  if 1/100000 < freq s then
    { m with
      alive := upd m.alive s (decide (cur_time - m.recv_time s < 10 / freq s))
      freq_ok := upd m.freq_ok s
        (if SubMaster.check_avg_freq freq m s then
          if 0 < (m.recv_dts s).length then
            decide ((m.recv_dts s).sum / ((m.recv_dts s).length : ℚ) <
              1 / (freq s * (9/10)))
          else false
        else true) }
  else
    { m with
      freq_ok := upd m.freq_ok s true
      alive := upd m.alive s true }

/-- One iteration of the per-message loop of `update_msgs` (lines 218-230):
an absent message (`None` in the list) is skipped (`continue`). -/
def applyOptMsg (cur_time : ℚ) (acc : SubMaster) (om : Option Msg) : SubMaster :=
  match om with
  | none => acc
  | some msg => applyMsg cur_time acc msg

/-- `SubMaster.update_msgs` (lines 215-250): bump `frame`, clear all
`updated` flags, fold the non-absent messages through the per-message loop,
then recompute `alive`/`freq_ok` for every tracked service (the source
iterates `for s in self.data`, whose key set is the tracked services). -/
def SubMaster.update_msgs (freq : String → ℚ) (m : SubMaster) (cur_time : ℚ)
    (msgs : List (Option Msg)) : SubMaster :=
  let m1 : SubMaster := { m with frame := m.frame + 1, updated := fun _ => false }
  let m2 := msgs.foldl (applyOptMsg cur_time) m1
  m2.services.foldl (recomputeService freq cur_time) m2

/-- `SubMaster.all_alive` (lines 252-255): conjunction of `alive[s]` over the
given service list (default: all tracked services), skipping services in
`ignore_alive`. -/
def SubMaster.all_alive (m : SubMaster) (service_list : Option (List String)) : Bool :=
  let l := service_list.getD m.services
  (l.filter fun s => !(decide (s ∈ m.ignore_alive))).all fun s => m.alive s

/-- `SubMaster.all_freq_ok` (lines 257-260): conjunction of `freq_ok[s]` over
the given service list, restricted to services for which `_check_avg_freq`
holds. -/
def SubMaster.all_freq_ok (freq : String → ℚ) (m : SubMaster)
    (service_list : Option (List String)) : Bool :=
  let l := service_list.getD m.services
  (l.filter fun s => SubMaster.check_avg_freq freq m s).all fun s => m.freq_ok s

/-- `SubMaster.all_valid` (lines 262-265): conjunction of `valid[s]` over the
given service list, skipping services in `ignore_valid`. -/
def SubMaster.all_valid (m : SubMaster) (service_list : Option (List String)) : Bool :=
  let l := service_list.getD m.services
  (l.filter fun s => !(decide (s ∈ m.ignore_valid))).all fun s => m.valid s

/-- `SubMaster.all_checks` (lines 267-270). -/
def SubMaster.all_checks (freq : String → ℚ) (m : SubMaster)
    (service_list : Option (List String)) : Bool :=
  m.all_alive service_list && SubMaster.all_freq_ok freq m service_list &&
    m.all_valid service_list

/-- A run of the aggregator: fold a sequence of `(cur_time, msgs)` ticks
through `update_msgs` (each tick is one `update()` call with the messages it
retrieved). -/
def runUpdates (freq : String → ℚ) (m : SubMaster)
    (steps : List (ℚ × List (Option Msg))) : SubMaster :=
  steps.foldl (fun acc p => SubMaster.update_msgs freq acc p.1 p.2) m

/-- Payload schema kind of a topic: a fixed-size struct, or a variable-length
list (capnp list field, e.g. the repeated-struct topics the source's
`# lists` comment refers to). -/
inductive SchemaKind
  | structKind
  | listKind
deriving DecidableEq

/-- An initialized payload slot of a message builder. -/
inductive PayloadSlot
  | structSlot
  | listSlot (size : Nat)
deriving DecidableEq

/-- capnp `builder.init(field)` / `builder.init(field, size)` semantics
(external collaborator `pycapnp`): a struct field is initialized without a
size; a list field raises `KjException` unless an explicit size is given
(the source's try/except at lines 188-191 exists precisely to catch this).
Errors are modelled as `Except.error ()`. -/
def capnpInitField : SchemaKind → Option Nat → Except Unit PayloadSlot
  | SchemaKind.structKind, none => Except.ok PayloadSlot.structSlot
  | SchemaKind.structKind, some _ => Except.error ()
  | SchemaKind.listKind, none => Except.error ()
  | SchemaKind.listKind, some n => Except.ok (PayloadSlot.listSlot n)

/-- A message builder as produced by `new_message`: the envelope defaults
plus the (optional) initialized payload slot. -/
structure MsgBuilder where
  valid : Bool
  logMonoTime : Nat
  payload : Option PayloadSlot
deriving DecidableEq

/-- `new_message` (lines 44-56): build an envelope with `valid = False` and
`logMonoTime` = current monotonic nanoseconds (`now` parameter), then, when a
service name is given, initialize that service's payload slot, passing the
explicit size through when present.  `schema` gives each topic's payload
schema kind; a raised `KjException` is `Except.error ()`.  The `**kwargs`
field overrides are not modelled (no claim concerns them). -/
def new_message (schema : String → SchemaKind) (now : Nat)
    (service : Option String) (size : Option Nat) : Except Unit MsgBuilder :=
  let dat : MsgBuilder := { valid := false, logMonoTime := now, payload := none }
  match service with
  | none => Except.ok dat
  | some s =>
    (capnpInitField (schema s) size).map fun p => { dat with payload := some p }

/-- The per-service placeholder construction in `SubMaster.__init__`
(lines 188-191): try `new_message(s)`; on `KjException` retry with
`new_message(s, 0)`.  A failure of the retry would propagate out of the
constructor. -/
def submasterInitData (schema : String → SchemaKind) (now : Nat) (s : String) :
    Except Unit MsgBuilder :=
  match new_message schema now (some s) none with
  | Except.ok d => Except.ok d
  | Except.error _ => new_message schema now (some s) (some 0)

/-- A subscriber socket as seen by the drain utilities: the queue of pending
messages (α is the raw payload type) and whether a receive timeout was
configured via `setTimeout` (in which case a blocking `receive()` returns the
absent sentinel once the timeout expires instead of blocking forever). -/
structure SubSocket (α : Type) where
  queue : List α
  hasTimeout : Bool

/-- `SubSocket.receive(non_blocking)`: pop the next queued message if any;
on an empty queue return the absent sentinel (`some (none, _)`) when
non-blocking or when a receive timeout is configured, and block forever
(outer `none`) otherwise. -/
def SubSocket.receive {α : Type} (sock : SubSocket α) (non_blocking : Bool) :
    Option (Option α × SubSocket α) :=
  match sock.queue with
  | d :: rest => some (some d, { sock with queue := rest })
  | [] => if non_blocking || sock.hasTimeout then some (none, sock) else none

/-- The `while 1` loop of `drain_sock_raw` (lines 78-92): receive blocking
only when `wait_for_one` is set and nothing has been accumulated yet; stop
and return the accumulated list on the absent sentinel.  An overall `none`
means the loop blocks forever. -/
def drainLoopRaw {α : Type} (wait_for_one : Bool) (sock : SubSocket α)
    (ret : List α) : Option (List α) :=
  match h : sock.receive (!(wait_for_one && ret.isEmpty)) with
  | none => none
  | some (none, _) => some ret
  | some (some d, sock2) => drainLoopRaw wait_for_one sock2 (ret ++ [d])
termination_by sock.queue.length
decreasing_by
  cases hq : sock.queue with
  | nil => rw [SubSocket.receive, hq] at h; split at h <;> simp_all
  | cons a tl =>
      rw [SubSocket.receive, hq] at h
      simp only [Option.some.injEq, Prod.mk.injEq] at h
      rw [← h.2]
      exact Nat.lt_succ_self _

/-- `drain_sock_raw` (lines 78-92). -/
def drain_sock_raw {α : Type} (sock : SubSocket α) (wait_for_one : Bool) :
    Option (List α) :=
  drainLoopRaw wait_for_one sock []

/-- The `while 1` loop of `drain_sock` (lines 95-110): same as the raw loop
but each received payload is decoded (`log_from_bytes`, here the abstract
`decode`) before being appended. -/
def drainLoopDec {α β : Type} (decode : α → β) (wait_for_one : Bool)
    (sock : SubSocket α) (ret : List β) : Option (List β) :=
  match h : sock.receive (!(wait_for_one && ret.isEmpty)) with
  | none => none
  | some (none, _) => some ret
  | some (some d, sock2) => drainLoopDec decode wait_for_one sock2 (ret ++ [decode d])
termination_by sock.queue.length
decreasing_by
  cases hq : sock.queue with
  | nil => rw [SubSocket.receive, hq] at h; split at h <;> simp_all
  | cons a tl =>
      rw [SubSocket.receive, hq] at h
      simp only [Option.some.injEq, Prod.mk.injEq] at h
      rw [← h.2]
      exact Nat.lt_succ_self _

/-- `drain_sock` (lines 95-110). -/
def drain_sock {α β : Type} (decode : α → β) (sock : SubSocket α)
    (wait_for_one : Bool) : Option (List β) :=
  drainLoopDec decode wait_for_one sock []

/-- Number of poll iterations of `wait_for_readers_to_update`:
`range(int(timeout*(1./dt)))` (line 285).  `Rat.floor` agrees with Python's
truncating `int()` on the nonnegative products that arise here, and for
negative products both clamp to zero iterations via `range`/`toNat`. -/
def pollIterations (timeout : Int) (dt : ℚ) : Nat :=
  (Rat.floor ((timeout : ℚ) * (1 / dt))).toNat

/-- The `for` loop of `wait_for_readers_to_update` (lines 285-289):
`k` is the poll index (the k-th check happens after `k` sleeps of `dt`),
`readersUpdated k` the value of `self.sock[s].all_readers_updated()` at that
check, `n` the remaining iterations. -/
def waitLoop (readersUpdated : Nat → Bool) : Nat → Nat → Bool
  | 0, _ => false
  | n + 1, k => if readersUpdated k then true else waitLoop readersUpdated n (k + 1)

/-- `PubMaster.wait_for_readers_to_update` (lines 284-289): poll the
transport's all-readers-updated predicate once per interval `dt` for
`int(timeout*(1./dt))` iterations; true as soon as a check succeeds, false
when the iterations are exhausted. -/
def wait_for_readers_to_update (readersUpdated : Nat → Bool) (timeout : Int)
    (dt : ℚ) : Bool :=
  waitLoop readersUpdated (pollIterations timeout dt) 0

/-- Modelled from the spec (amended thresholds): the recompute step's
average-rate-checking applicability condition for one topic —
`recvTime > 1e-5`, registry frequency `> 1e-5`, topic polled, topic in
neither the rate-ignore set nor the alive-ignore set.  Stated over a state's
fields for comparison with the code's `_check_avg_freq`/`update_msgs`. -/
def avgFreqApplies (freq : String → ℚ) (m : SubMaster) (s : String) : Prop :=
  1/100000 < m.recv_time s ∧ 1/100000 < freq s ∧ s ∉ m.non_polled_services ∧
    s ∉ m.ignore_average_freq ∧ s ∉ m.ignore_alive

instance (freq : String → ℚ) (m : SubMaster) (s : String) :
    Decidable (avgFreqApplies freq m s) := by
  unfold avgFreqApplies; infer_instance

/-- Modelled from the spec (amended thresholds): the `freqOk` value the spec
prescribes after a recompute, as a function of the post-recompute state:
when average-rate checking applies, the mean of the history compared with
`1/(0.9·f)` (false on an empty history); default true otherwise. -/
def freqOkSpec (freq : String → ℚ) (m : SubMaster) (s : String) : Bool :=
  if avgFreqApplies freq m s then
    if (m.recv_dts s) ≠ [] then
      decide ((m.recv_dts s).sum / ((m.recv_dts s).length : ℚ) < 1 / ((9/10) * freq s))
    else false
  else true

/-- Modelled from the spec (amended thresholds): the `alive` value the spec
prescribes after a recompute at time `now` for a topic whose registry
frequency is above the `1e-5` threshold: `(now − recvTime) < 10 / f`. -/
def aliveSpec (freq : String → ℚ) (now : ℚ) (m : SubMaster) (s : String) : Bool :=
  decide (now - m.recv_time s < 10 / freq s)

/-- The value `update_msgs` assigns to `freq_ok[s]` in its per-service loop,
as a function of the state entering that loop. -/
def freqOkVal (freq : String → ℚ) (m : SubMaster) (s : String) : Bool :=
  if 1/100000 < freq s then
    (if SubMaster.check_avg_freq freq m s then
      if 0 < (m.recv_dts s).length then
        decide ((m.recv_dts s).sum / ((m.recv_dts s).length : ℚ) <
          1 / (freq s * (9/10)))
      else false
    else true)
  else true

/-- The value `update_msgs` assigns to `alive[s]` in its per-service loop,
as a function of the state entering that loop. -/
def aliveVal (freq : String → ℚ) (t : ℚ) (m : SubMaster) (s : String) : Bool :=
  if 1/100000 < freq s then decide (t - m.recv_time s < 10 / freq s) else true

/-- The state after the per-message loop of `update_msgs` (frame bumped,
`updated` cleared, messages folded in), i.e. the state the per-service
recompute loop starts from. -/
def midState (t : ℚ) (m : SubMaster) (msgs : List (Option Msg)) : SubMaster :=
  msgs.foldl (applyOptMsg t) { m with frame := m.frame + 1, updated := fun _ => false }

/-- The placeholder payload slot `SubMaster.__init__` ends up with for a
topic of the given schema kind: default struct instance for struct schemas,
zero-sized list for variable-length schemas. -/
def placeholderSlot : SchemaKind → PayloadSlot
  | SchemaKind.structKind => PayloadSlot.structSlot
  | SchemaKind.listKind => PayloadSlot.listSlot 0

/-- A one-topic aggregator state whose history deque for every topic is
already full (100 entries). -/
def fullHistoryState : SubMaster :=
  { SubMaster.init ["a"] none none none none false with
    recv_dts := fun _ => List.replicate 100 0 }

/-- A one-topic aggregator constructed with the topic on all three ignore
lists (no simulation override). -/
def ignoreAllState : SubMaster :=
  SubMaster.init ["a"] none (some ["a"]) (some ["a"]) (some ["a"]) false

/-- One tick on a freshly constructed one-topic aggregator whose registry
frequency is `1e-6` Hz (positive but below the code's `1e-5` threshold),
receiving one message at monotonic time `2·10^6` s. -/
def tinyFreqMsgState : SubMaster :=
  SubMaster.update_msgs (fun _ => 1/1000000)
    (SubMaster.init ["a"] none none none none false) 2000000 [some (Msg.mk "a" 5 true)]

/-- One tick on a freshly constructed one-topic aggregator whose registry
frequency is `1e-6` Hz, receiving no message, at monotonic time `2·10^7` s
(past the `10/f = 10^7` s staleness threshold). -/
def tinyFreqNoMsgState : SubMaster :=
  SubMaster.update_msgs (fun _ => 1/1000000)
    (SubMaster.init ["a"] none none none none false) 20000000 []

/-! ### Helper lemmas -/

theorem upd_self {α : Type} (f : String → α) (s : String) (v : α) : upd f s v s = v := by
  simp [upd]

theorem upd_ne {α : Type} (f : String → α) (s t : String) (v : α) (h : t ≠ s) :
    upd f s v t = f t := by
  simp [upd, h]

theorem dequeAppend_length_le (l : List ℚ) (x : ℚ) :
    (dequeAppend AVG_FREQ_HISTORY l x).length ≤ 100 := by
  simp only [dequeAppend, List.length_drop, List.length_append, List.length_singleton,
    AVG_FREQ_HISTORY]
  omega

theorem dequeAppend_full (l : List ℚ) (x : ℚ) (h : l.length = 100) :
    dequeAppend AVG_FREQ_HISTORY l x = l.tail ++ [x] := by
  have hl : l ≠ [] := by intro he; rw [he] at h; simp at h
  simp only [dequeAppend, AVG_FREQ_HISTORY, List.length_append, List.length_singleton, h]
  rw [show 100 + 1 - 100 = 1 by rfl, List.drop_append_of_le_length (by omega), List.drop_one]

/-- A projection preserved by each fold step is preserved by the fold. -/
theorem foldl_pres {α β γ : Type} (step : α → γ → α) (g : α → β)
    (hg : ∀ m a, g (step m a) = g m) :
    ∀ (l : List γ) (m : α), g (l.foldl step m) = g m := by
  intro l
  induction l with
  | nil => intro m; rfl
  | cons a tl ih => intro m; rw [List.foldl_cons, ih, hg]

theorem recompute_services (freq : String → ℚ) (t : ℚ) (m : SubMaster) (a : String) :
    (recomputeService freq t m a).services = m.services := by
  unfold recomputeService; split <;> rfl

theorem recompute_frame (freq : String → ℚ) (t : ℚ) (m : SubMaster) (a : String) :
    (recomputeService freq t m a).frame = m.frame := by
  unfold recomputeService; split <;> rfl

theorem recompute_recv_time (freq : String → ℚ) (t : ℚ) (m : SubMaster) (a : String) :
    (recomputeService freq t m a).recv_time = m.recv_time := by
  unfold recomputeService; split <;> rfl

theorem recompute_recv_dts (freq : String → ℚ) (t : ℚ) (m : SubMaster) (a : String) :
    (recomputeService freq t m a).recv_dts = m.recv_dts := by
  unfold recomputeService; split <;> rfl

theorem recompute_valid (freq : String → ℚ) (t : ℚ) (m : SubMaster) (a : String) :
    (recomputeService freq t m a).valid = m.valid := by
  unfold recomputeService; split <;> rfl

theorem recompute_non_polled (freq : String → ℚ) (t : ℚ) (m : SubMaster) (a : String) :
    (recomputeService freq t m a).non_polled_services = m.non_polled_services := by
  unfold recomputeService; split <;> rfl

theorem recompute_ignore_avg (freq : String → ℚ) (t : ℚ) (m : SubMaster) (a : String) :
    (recomputeService freq t m a).ignore_average_freq = m.ignore_average_freq := by
  unfold recomputeService; split <;> rfl

theorem recompute_ignore_alive (freq : String → ℚ) (t : ℚ) (m : SubMaster) (a : String) :
    (recomputeService freq t m a).ignore_alive = m.ignore_alive := by
  unfold recomputeService; split <;> rfl

theorem recompute_ignore_valid (freq : String → ℚ) (t : ℚ) (m : SubMaster) (a : String) :
    (recomputeService freq t m a).ignore_valid = m.ignore_valid := by
  unfold recomputeService; split <;> rfl

theorem recompute_freq_ok_self (freq : String → ℚ) (t : ℚ) (m : SubMaster) (s : String) :
    (recomputeService freq t m s).freq_ok s = freqOkVal freq m s := by
  unfold recomputeService freqOkVal
  split <;> simp [upd]

theorem recompute_freq_ok_ne (freq : String → ℚ) (t : ℚ) (m : SubMaster) (s a : String)
    (h : s ≠ a) : (recomputeService freq t m a).freq_ok s = m.freq_ok s := by
  unfold recomputeService
  split <;> simp [upd, h]

theorem recompute_alive_self (freq : String → ℚ) (t : ℚ) (m : SubMaster) (s : String) :
    (recomputeService freq t m s).alive s = aliveVal freq t m s := by
  unfold recomputeService aliveVal
  split <;> simp [upd]

theorem recompute_alive_ne (freq : String → ℚ) (t : ℚ) (m : SubMaster) (s a : String)
    (h : s ≠ a) : (recomputeService freq t m a).alive s = m.alive s := by
  unfold recomputeService
  split <;> simp [upd, h]

theorem recompute_check (freq : String → ℚ) (t : ℚ) (m : SubMaster) (a s : String) :
    SubMaster.check_avg_freq freq (recomputeService freq t m a) s =
      SubMaster.check_avg_freq freq m s := by
  unfold SubMaster.check_avg_freq
  rw [recompute_recv_time, recompute_non_polled, recompute_ignore_avg, recompute_ignore_alive]

theorem recompute_freqOkVal (freq : String → ℚ) (t : ℚ) (m : SubMaster) (a s : String) :
    freqOkVal freq (recomputeService freq t m a) s = freqOkVal freq m s := by
  unfold freqOkVal
  rw [recompute_check, recompute_recv_dts]

theorem recompute_aliveVal (freq : String → ℚ) (t : ℚ) (m : SubMaster) (a s : String) :
    aliveVal freq t (recomputeService freq t m a) s = aliveVal freq t m s := by
  unfold aliveVal
  rw [recompute_recv_time]

theorem foldl_recompute_freq_ok_not_mem (freq : String → ℚ) (t : ℚ) :
    ∀ (l : List String) (m : SubMaster) (s : String), s ∉ l →
      (l.foldl (recomputeService freq t) m).freq_ok s = m.freq_ok s := by
  intro l
  induction l with
  | nil => intro m s _; rfl
  | cons a tl ih =>
      intro m s hs
      rw [List.foldl_cons, ih _ s (fun h => hs (List.mem_cons_of_mem a h)),
        recompute_freq_ok_ne freq t m s a (fun h => hs (h ▸ List.mem_cons_self a tl))]

theorem foldl_recompute_freq_ok_mem (freq : String → ℚ) (t : ℚ) :
    ∀ (l : List String) (m : SubMaster) (s : String), s ∈ l →
      (l.foldl (recomputeService freq t) m).freq_ok s = freqOkVal freq m s := by
  intro l
  induction l with
  | nil => intro m s hs; cases hs
  | cons a tl ih =>
      intro m s hs
      rw [List.foldl_cons]
      by_cases htl : s ∈ tl
      · rw [ih _ s htl, recompute_freqOkVal]
      · have hsa : s = a := by
          rcases List.mem_cons.mp hs with h | h
          · exact h
          · exact absurd h htl
        subst hsa
        rw [foldl_recompute_freq_ok_not_mem freq t tl _ s htl, recompute_freq_ok_self]

theorem foldl_recompute_alive_not_mem (freq : String → ℚ) (t : ℚ) :
    ∀ (l : List String) (m : SubMaster) (s : String), s ∉ l →
      (l.foldl (recomputeService freq t) m).alive s = m.alive s := by
  intro l
  induction l with
  | nil => intro m s _; rfl
  | cons a tl ih =>
      intro m s hs
      rw [List.foldl_cons, ih _ s (fun h => hs (List.mem_cons_of_mem a h)),
        recompute_alive_ne freq t m s a (fun h => hs (h ▸ List.mem_cons_self a tl))]

theorem foldl_recompute_alive_mem (freq : String → ℚ) (t : ℚ) :
    ∀ (l : List String) (m : SubMaster) (s : String), s ∈ l →
      (l.foldl (recomputeService freq t) m).alive s = aliveVal freq t m s := by
  intro l
  induction l with
  | nil => intro m s hs; cases hs
  | cons a tl ih =>
      intro m s hs
      rw [List.foldl_cons]
      by_cases htl : s ∈ tl
      · rw [ih _ s htl, recompute_aliveVal]
      · have hsa : s = a := by
          rcases List.mem_cons.mp hs with h | h
          · exact h
          · exact absurd h htl
        subst hsa
        rw [foldl_recompute_alive_not_mem freq t tl _ s htl, recompute_alive_self]

theorem list_all_congr (l : List String) (p q : String → Bool)
    (h : ∀ x ∈ l, p x = q x) : l.all p = l.all q := by
  induction l with
  | nil => rfl
  | cons a tl ih =>
      simp only [List.all_cons, h a (List.mem_cons_self a tl)]
      rw [ih fun x hx => h x (List.mem_cons_of_mem a hx)]

/-- A predicate preserved by each fold step is preserved by the fold. -/
theorem foldl_inv {α γ : Type} (step : α → γ → α) (P : α → Prop)
    (hstep : ∀ m a, P m → P (step m a)) :
    ∀ (l : List γ) (m : α), P m → P (l.foldl step m) := by
  intro l
  induction l with
  | nil => intro m hm; exact hm
  | cons a tl ih => intro m hm; exact ih _ (hstep m a hm)

theorem applyOptMsg_services (t : ℚ) (m : SubMaster) (om : Option Msg) :
    (applyOptMsg t m om).services = m.services := by
  cases om <;> rfl

theorem applyOptMsg_frame (t : ℚ) (m : SubMaster) (om : Option Msg) :
    (applyOptMsg t m om).frame = m.frame := by
  cases om <;> rfl

theorem applyOptMsg_non_polled (t : ℚ) (m : SubMaster) (om : Option Msg) :
    (applyOptMsg t m om).non_polled_services = m.non_polled_services := by
  cases om <;> rfl

theorem applyOptMsg_ignore_avg (t : ℚ) (m : SubMaster) (om : Option Msg) :
    (applyOptMsg t m om).ignore_average_freq = m.ignore_average_freq := by
  cases om <;> rfl

theorem applyOptMsg_ignore_alive (t : ℚ) (m : SubMaster) (om : Option Msg) :
    (applyOptMsg t m om).ignore_alive = m.ignore_alive := by
  cases om <;> rfl

theorem applyOptMsg_ignore_valid (t : ℚ) (m : SubMaster) (om : Option Msg) :
    (applyOptMsg t m om).ignore_valid = m.ignore_valid := by
  cases om <;> rfl

theorem applyOptMsg_alive (t : ℚ) (m : SubMaster) (om : Option Msg) :
    (applyOptMsg t m om).alive = m.alive := by
  cases om <;> rfl

theorem applyOptMsg_freq_ok (t : ℚ) (m : SubMaster) (om : Option Msg) :
    (applyOptMsg t m om).freq_ok = m.freq_ok := by
  cases om <;> rfl

theorem update_msgs_def (freq : String → ℚ) (m : SubMaster) (t : ℚ)
    (msgs : List (Option Msg)) :
    SubMaster.update_msgs freq m t msgs =
      (midState t m msgs).services.foldl (recomputeService freq t) (midState t m msgs) := rfl

theorem midState_services (t : ℚ) (m : SubMaster) (msgs : List (Option Msg)) :
    (midState t m msgs).services = m.services :=
  foldl_pres _ SubMaster.services (applyOptMsg_services t) msgs _

theorem midState_frame (t : ℚ) (m : SubMaster) (msgs : List (Option Msg)) :
    (midState t m msgs).frame = m.frame + 1 :=
  foldl_pres _ SubMaster.frame (applyOptMsg_frame t) msgs _

theorem midState_non_polled (t : ℚ) (m : SubMaster) (msgs : List (Option Msg)) :
    (midState t m msgs).non_polled_services = m.non_polled_services :=
  foldl_pres _ SubMaster.non_polled_services (applyOptMsg_non_polled t) msgs _

theorem midState_ignore_avg (t : ℚ) (m : SubMaster) (msgs : List (Option Msg)) :
    (midState t m msgs).ignore_average_freq = m.ignore_average_freq :=
  foldl_pres _ SubMaster.ignore_average_freq (applyOptMsg_ignore_avg t) msgs _

theorem midState_ignore_alive (t : ℚ) (m : SubMaster) (msgs : List (Option Msg)) :
    (midState t m msgs).ignore_alive = m.ignore_alive :=
  foldl_pres _ SubMaster.ignore_alive (applyOptMsg_ignore_alive t) msgs _

theorem midState_ignore_valid (t : ℚ) (m : SubMaster) (msgs : List (Option Msg)) :
    (midState t m msgs).ignore_valid = m.ignore_valid :=
  foldl_pres _ SubMaster.ignore_valid (applyOptMsg_ignore_valid t) msgs _

theorem update_msgs_services (freq : String → ℚ) (m : SubMaster) (t : ℚ)
    (msgs : List (Option Msg)) :
    (SubMaster.update_msgs freq m t msgs).services = m.services := by
  rw [update_msgs_def,
    foldl_pres _ SubMaster.services (fun x a => recompute_services freq t x a),
    midState_services]

theorem update_msgs_frame (freq : String → ℚ) (m : SubMaster) (t : ℚ)
    (msgs : List (Option Msg)) :
    (SubMaster.update_msgs freq m t msgs).frame = m.frame + 1 := by
  rw [update_msgs_def,
    foldl_pres _ SubMaster.frame (fun x a => recompute_frame freq t x a),
    midState_frame]

theorem update_msgs_recv_time (freq : String → ℚ) (m : SubMaster) (t : ℚ)
    (msgs : List (Option Msg)) :
    (SubMaster.update_msgs freq m t msgs).recv_time = (midState t m msgs).recv_time := by
  rw [update_msgs_def,
    foldl_pres _ SubMaster.recv_time (fun x a => recompute_recv_time freq t x a)]

theorem update_msgs_recv_dts (freq : String → ℚ) (m : SubMaster) (t : ℚ)
    (msgs : List (Option Msg)) :
    (SubMaster.update_msgs freq m t msgs).recv_dts = (midState t m msgs).recv_dts := by
  rw [update_msgs_def,
    foldl_pres _ SubMaster.recv_dts (fun x a => recompute_recv_dts freq t x a)]

theorem update_msgs_non_polled (freq : String → ℚ) (m : SubMaster) (t : ℚ)
    (msgs : List (Option Msg)) :
    (SubMaster.update_msgs freq m t msgs).non_polled_services = m.non_polled_services := by
  rw [update_msgs_def,
    foldl_pres _ SubMaster.non_polled_services (fun x a => recompute_non_polled freq t x a),
    midState_non_polled]

theorem update_msgs_ignore_avg (freq : String → ℚ) (m : SubMaster) (t : ℚ)
    (msgs : List (Option Msg)) :
    (SubMaster.update_msgs freq m t msgs).ignore_average_freq = m.ignore_average_freq := by
  rw [update_msgs_def,
    foldl_pres _ SubMaster.ignore_average_freq (fun x a => recompute_ignore_avg freq t x a),
    midState_ignore_avg]

theorem update_msgs_ignore_alive (freq : String → ℚ) (m : SubMaster) (t : ℚ)
    (msgs : List (Option Msg)) :
    (SubMaster.update_msgs freq m t msgs).ignore_alive = m.ignore_alive := by
  rw [update_msgs_def,
    foldl_pres _ SubMaster.ignore_alive (fun x a => recompute_ignore_alive freq t x a),
    midState_ignore_alive]

theorem update_msgs_ignore_valid (freq : String → ℚ) (m : SubMaster) (t : ℚ)
    (msgs : List (Option Msg)) :
    (SubMaster.update_msgs freq m t msgs).ignore_valid = m.ignore_valid := by
  rw [update_msgs_def,
    foldl_pres _ SubMaster.ignore_valid (fun x a => recompute_ignore_valid freq t x a),
    midState_ignore_valid]

theorem update_msgs_freq_ok_mem (freq : String → ℚ) (m : SubMaster) (t : ℚ)
    (msgs : List (Option Msg)) (s : String) (hs : s ∈ m.services) :
    (SubMaster.update_msgs freq m t msgs).freq_ok s =
      freqOkVal freq (midState t m msgs) s := by
  rw [update_msgs_def]
  exact foldl_recompute_freq_ok_mem freq t _ _ s (by rw [midState_services]; exact hs)

theorem update_msgs_alive_mem (freq : String → ℚ) (m : SubMaster) (t : ℚ)
    (msgs : List (Option Msg)) (s : String) (hs : s ∈ m.services) :
    (SubMaster.update_msgs freq m t msgs).alive s =
      aliveVal freq t (midState t m msgs) s := by
  rw [update_msgs_def]
  exact foldl_recompute_alive_mem freq t _ _ s (by rw [midState_services]; exact hs)

theorem check_eq_true_iff (freq : String → ℚ) (m : SubMaster) (s : String) :
    SubMaster.check_avg_freq freq m s = true ↔
      (1/100000 < m.recv_time s ∧ 1/100000 < freq s ∧ s ∉ m.non_polled_services ∧
        s ∉ m.ignore_average_freq ∧ s ∉ m.ignore_alive) := by
  unfold SubMaster.check_avg_freq
  simp only [Bool.and_eq_true, decide_eq_true_eq, Bool.not_eq_true', decide_eq_false_iff_not]
  tauto

/-- `freqOkVal` (the value the code assigns) coincides with the spec-side
`freqOkSpec` on every state: the two differ only in the phrasing of the
applicability condition and the factor order in `0.9·f`. -/
theorem freqOkVal_eq_spec (freq : String → ℚ) (m : SubMaster) (s : String) :
    freqOkVal freq m s = freqOkSpec freq m s := by
  by_cases hap : avgFreqApplies freq m s
  · have hcheck : SubMaster.check_avg_freq freq m s = true :=
      (check_eq_true_iff freq m s).mpr hap
    have hf : (1/100000 : ℚ) < freq s := hap.2.1
    unfold freqOkVal freqOkSpec
    rw [if_pos hf, if_pos hap, hcheck, if_pos rfl]
    by_cases hne : m.recv_dts s = []
    · rw [if_neg (by simp [hne]), if_neg (by simp [hne])]
    · rw [if_pos (List.length_pos.mpr hne), if_pos hne, mul_comm (freq s) (9/10 : ℚ)]
  · have hcheck : SubMaster.check_avg_freq freq m s = false := by
      rw [Bool.eq_false_iff]
      intro hc
      exact hap ((check_eq_true_iff freq m s).mp hc)
    unfold freqOkVal freqOkSpec
    rw [if_neg hap, hcheck]
    split <;> rfl

theorem freqOkVal_of_ignore_avg (freq : String → ℚ) (m : SubMaster) (s : String)
    (h : s ∈ m.ignore_average_freq) : freqOkVal freq m s = true := by
  have hcheck : SubMaster.check_avg_freq freq m s = false := by
    rw [Bool.eq_false_iff]
    intro hc
    exact ((check_eq_true_iff freq m s).mp hc).2.2.2.1 h
  unfold freqOkVal
  rw [hcheck]
  split <;> rfl

theorem freqOkVal_of_ignore_alive (freq : String → ℚ) (m : SubMaster) (s : String)
    (h : s ∈ m.ignore_alive) : freqOkVal freq m s = true := by
  have hcheck : SubMaster.check_avg_freq freq m s = false := by
    rw [Bool.eq_false_iff]
    intro hc
    exact ((check_eq_true_iff freq m s).mp hc).2.2.2.2 h
  unfold freqOkVal
  rw [hcheck]
  split <;> rfl

theorem all_alive_of_ignore_all (m : SubMaster)
    (h : ∀ x ∈ m.services, x ∈ m.ignore_alive) : m.all_alive none = true := by
  unfold SubMaster.all_alive
  have : m.services.filter (fun s => !(decide (s ∈ m.ignore_alive))) = [] :=
    List.filter_eq_nil_iff.mpr (by intro a ha; simp [h a ha])
  simp [this]

theorem all_freq_ok_of_ignore_all (freq : String → ℚ) (m : SubMaster)
    (h : ∀ x ∈ m.services, x ∈ m.ignore_alive) :
    SubMaster.all_freq_ok freq m none = true := by
  unfold SubMaster.all_freq_ok
  have : m.services.filter (fun s => SubMaster.check_avg_freq freq m s) = [] := by
    refine List.filter_eq_nil_iff.mpr ?_
    intro a ha hc
    exact ((check_eq_true_iff freq m a).mp hc).2.2.2.2 (h a ha)
  simp [this]

theorem applyOptMsg_dts_le (t : ℚ) (m : SubMaster) (om : Option Msg)
    (h : ∀ s, (m.recv_dts s).length ≤ 100) :
    ∀ s, ((applyOptMsg t m om).recv_dts s).length ≤ 100 := by
  intro s
  cases om with
  | none => exact h s
  | some msg =>
      show ((applyMsg t m msg).recv_dts s).length ≤ 100
      by_cases hs : s = msg.which
      · subst hs
        rw [show (applyMsg t m msg).recv_dts = upd m.recv_dts msg.which
            (dequeAppend AVG_FREQ_HISTORY (m.recv_dts msg.which)
              (t - m.recv_time msg.which)) from rfl, upd_self]
        exact dequeAppend_length_le _ _
      · rw [show (applyMsg t m msg).recv_dts = upd m.recv_dts msg.which
            (dequeAppend AVG_FREQ_HISTORY (m.recv_dts msg.which)
              (t - m.recv_time msg.which)) from rfl, upd_ne _ _ _ _ hs]
        exact h s

theorem update_msgs_dts_le (freq : String → ℚ) (m : SubMaster) (t : ℚ)
    (msgs : List (Option Msg)) (h : ∀ s, (m.recv_dts s).length ≤ 100) :
    ∀ s, ((SubMaster.update_msgs freq m t msgs).recv_dts s).length ≤ 100 := by
  rw [update_msgs_recv_dts]
  exact foldl_inv (applyOptMsg t) (fun x => ∀ s, (x.recv_dts s).length ≤ 100)
    (fun x om hx => applyOptMsg_dts_le t x om hx) msgs _ h

theorem runUpdates_dts_le (freq : String → ℚ) (m : SubMaster)
    (steps : List (ℚ × List (Option Msg))) (h : ∀ s, (m.recv_dts s).length ≤ 100) :
    ∀ s, ((runUpdates freq m steps).recv_dts s).length ≤ 100 :=
  foldl_inv _ (fun x => ∀ s, (x.recv_dts s).length ≤ 100)
    (fun x p hx => update_msgs_dts_le freq x p.1 p.2 hx) steps m h

theorem update_msgs_single_evict (freq : String → ℚ) (m : SubMaster) (t : ℚ)
    (msg : Msg) (h : (m.recv_dts msg.which).length = 100) :
    (SubMaster.update_msgs freq m t [some msg]).recv_dts msg.which =
      (m.recv_dts msg.which).tail ++ [t - m.recv_time msg.which] := by
  rw [update_msgs_recv_dts]
  show upd m.recv_dts msg.which
    (dequeAppend AVG_FREQ_HISTORY (m.recv_dts msg.which) (t - m.recv_time msg.which))
    msg.which = _
  rw [upd_self, dequeAppend_full _ _ h]

/-- Changing `alive[s]` for an `ignore_alive` member does not change
`all_alive`: such topics are filtered out of the reduction. -/
theorem all_alive_upd (m : SubMaster) (sl : Option (List String)) (s : String) (b : Bool)
    (h : s ∈ m.ignore_alive) :
    SubMaster.all_alive { m with alive := upd m.alive s b } sl = SubMaster.all_alive m sl := by
  show ((sl.getD m.services).filter fun x => !(decide (x ∈ m.ignore_alive))).all
      (fun x => upd m.alive s b x) =
    ((sl.getD m.services).filter fun x => !(decide (x ∈ m.ignore_alive))).all
      (fun x => m.alive x)
  apply list_all_congr
  intro x hx
  have hxi : x ∉ m.ignore_alive := by
    have := (List.mem_filter.mp hx).2
    simpa using this
  exact upd_ne _ _ _ _ (by rintro rfl; exact hxi h)

/-- Changing `freq_ok[s]` for an `ignore_average_freq` member does not change
`all_freq_ok`: `_check_avg_freq` is false for such topics, so they are
filtered out of the reduction. -/
theorem all_freq_ok_upd (freq : String → ℚ) (m : SubMaster) (sl : Option (List String))
    (s : String) (b : Bool) (h : s ∈ m.ignore_average_freq) :
    SubMaster.all_freq_ok freq { m with freq_ok := upd m.freq_ok s b } sl =
      SubMaster.all_freq_ok freq m sl := by
  show ((sl.getD m.services).filter fun x => SubMaster.check_avg_freq freq m x).all
      (fun x => upd m.freq_ok s b x) =
    ((sl.getD m.services).filter fun x => SubMaster.check_avg_freq freq m x).all
      (fun x => m.freq_ok x)
  apply list_all_congr
  intro x hx
  have hxn : x ∉ m.ignore_average_freq :=
    ((check_eq_true_iff freq m x).mp (List.mem_filter.mp hx).2).2.2.2.1
  exact upd_ne _ _ _ _ (by rintro rfl; exact hxn h)

/-- Changing `valid[s]` for an `ignore_valid` member does not change
`all_valid`: such topics are filtered out of the reduction. -/
theorem all_valid_upd (m : SubMaster) (sl : Option (List String)) (s : String) (b : Bool)
    (h : s ∈ m.ignore_valid) :
    SubMaster.all_valid { m with valid := upd m.valid s b } sl = SubMaster.all_valid m sl := by
  show ((sl.getD m.services).filter fun x => !(decide (x ∈ m.ignore_valid))).all
      (fun x => upd m.valid s b x) =
    ((sl.getD m.services).filter fun x => !(decide (x ∈ m.ignore_valid))).all
      (fun x => m.valid x)
  apply list_all_congr
  intro x hx
  have hxi : x ∉ m.ignore_valid := by
    have := (List.mem_filter.mp hx).2
    simpa using this
  exact upd_ne _ _ _ _ (by rintro rfl; exact hxi h)

theorem waitLoop_true (ru : Nat → Bool) (k0 : Nat) (hru : ∀ k, k0 ≤ k → ru k = true) :
    ∀ (n start : Nat), start ≤ k0 → k0 < start + n → waitLoop ru n start = true := by
  intro n
  induction n with
  | zero => intro start h1 h2; omega
  | succ n ih =>
      intro start h1 h2
      show (if ru start then true else waitLoop ru n (start + 1)) = true
      by_cases hs : ru start = true
      · rw [if_pos hs]
      · have hlt : start < k0 := by
          rcases Nat.lt_or_ge start k0 with h | h
          · exact h
          · exact absurd (hru start h) hs
        rw [if_neg (by simp [hs])]
        exact ih (start + 1) (by omega) (by omega)

theorem waitLoop_false (ru : Nat → Bool) :
    ∀ (n start : Nat), (∀ k, k < start + n → ru k = false) → waitLoop ru n start = false := by
  intro n
  induction n with
  | zero => intro start _; rfl
  | succ n ih =>
      intro start h
      show (if ru start then true else waitLoop ru n (start + 1)) = false
      rw [if_neg (by simp [h start (by omega)])]
      exact ih (start + 1) (fun k hk => h k (by omega))

/-- `freqOkSpec` only reads the listed fields, so it is invariant under any
state change that preserves them. -/
theorem freqOkSpec_congr (freq : String → ℚ) (m1 m2 : SubMaster) (s : String)
    (h1 : m1.recv_time s = m2.recv_time s) (h2 : m1.recv_dts s = m2.recv_dts s)
    (h3 : m1.non_polled_services = m2.non_polled_services)
    (h4 : m1.ignore_average_freq = m2.ignore_average_freq)
    (h5 : m1.ignore_alive = m2.ignore_alive) :
    freqOkSpec freq m1 s = freqOkSpec freq m2 s := by
  have happ : avgFreqApplies freq m1 s ↔ avgFreqApplies freq m2 s := by
    unfold avgFreqApplies
    rw [h1, h3, h4, h5]
  unfold freqOkSpec
  by_cases hap : avgFreqApplies freq m1 s
  · rw [if_pos hap, if_pos (happ.mp hap), h2]
  · rw [if_neg hap, if_neg (fun hh => hap (happ.mpr hh))]

theorem aliveVal_pos (freq : String → ℚ) (t : ℚ) (m : SubMaster) (s : String)
    (hf : 1/100000 < freq s) :
    aliveVal freq t m s = decide (t - m.recv_time s < 10 / freq s) := by
  unfold aliveVal
  rw [if_pos hf]

/-- A 1-second timeout with the default 0.05 s poll interval yields 20 poll
iterations. -/
theorem pollIterations_one_twentieth : pollIterations 1 (1/20) = 20 := by
  unfold pollIterations
  have h : ((1 : Int) : ℚ) * (1 / (1/20)) = ((20 : ℤ) : ℚ) := by norm_num
  rw [h, show Rat.floor ((20 : ℤ) : ℚ) = ⌊((20 : ℤ) : ℚ)⌋ from rfl, Int.floor_intCast]
  rfl

/-! ### Claim theorems -/

/-- C4 counterexample: the all-readers-updated predicate becomes and stays
true at poll index 20, i.e. exactly when `timeoutSec = 1` with the default
0.05 s poll interval has elapsed (the loop runs checks 0..19).
`wait_for_readers_to_update` nevertheless returns false, refuting the claim
that for ANY point at which the predicate becomes and stays true the
function returns true within one poll interval of that point. -/
theorem c4_counterexample :
    wait_for_readers_to_update (fun k => decide (20 ≤ k)) 1 (1/20) = false := by
  unfold wait_for_readers_to_update
  rw [pollIterations_one_twentieth]
  rfl

/-- C4 (amended): if the predicate becomes and stays true at a poll index
inside the timeout window (fewer than `int(timeout·(1/dt))` checks), the
function returns true (the first check at or after that index succeeds, so
within one poll interval); if the predicate is false at every check of the
window, it returns false once the window is exhausted. -/
theorem c4_wait_for_readers (ru : Nat → Bool) (timeout : Int) (dt : ℚ) :
    (∀ k0, k0 < pollIterations timeout dt → (∀ k, k0 ≤ k → ru k = true) →
      wait_for_readers_to_update ru timeout dt = true) ∧
    ((∀ k, k < pollIterations timeout dt → ru k = false) →
      wait_for_readers_to_update ru timeout dt = false) := by
  constructor
  · intro k0 hk0 hru
    unfold wait_for_readers_to_update
    exact waitLoop_true ru k0 hru (pollIterations timeout dt) 0 (Nat.zero_le _) (by omega)
  · intro h
    unfold wait_for_readers_to_update
    exact waitLoop_false ru (pollIterations timeout dt) 0 (fun k hk => h k (by omega))

/-- C4 witness: a predicate true from the very first check makes a 1-second
wait succeed; an always-false predicate makes it fail. -/
theorem c4_wait_for_readers_witness :
    wait_for_readers_to_update (fun _ => true) 1 (1/20) = true ∧
    wait_for_readers_to_update (fun _ => false) 1 (1/20) = false :=
  ⟨(c4_wait_for_readers (fun _ => true) 1 (1/20)).1 0
      (by rw [pollIterations_one_twentieth]; norm_num) (fun _ _ => rfl),
   (c4_wait_for_readers (fun _ => false) 1 (1/20)).2 (fun _ _ => rfl)⟩

/-- C5 counterexample: `new_message` on a topic with a variable-length
payload schema and no explicit size raises (`KjException`, modelled as
`Except.error ()`) instead of initializing the slot with size 0, refuting
the claim's first half ("it does not fail"). -/
theorem c5_counterexample :
    new_message (fun _ => SchemaKind.listKind) 0 (some "a") none = Except.error () := rfl

/-- C5 (amended): `new_message` for a variable-length payload schema without
an explicit size raises; the Aggregator constructor catches the exception
and retries with explicit size 0, so construction itself never fails and a
variable-length topic gets a zero-sized placeholder instance. -/
theorem c5_new_message_fallback (schema : String → SchemaKind) (now : Nat) (s : String) :
    submasterInitData schema now s =
      Except.ok { valid := false, logMonoTime := now,
                  payload := some (placeholderSlot (schema s)) } := by
  cases h : schema s <;>
    simp [submasterInitData, new_message, capnpInitField, placeholderSlot, h] <;> rfl

/-- C6: the frame counter is `-1` after construction, `0` after the first
`update_msgs`, and is incremented by exactly 1 on every `update_msgs` call
(for any state and any message list, including the empty one);
`update_msgs` is the only operation that writes `frame`, so it is never
reset or decreased. -/
theorem c6_frame_counter (services : List String) (poll ia iaf iv : Option (List String))
    (sim : Bool) (freq : String → ℚ) (m : SubMaster) (t : ℚ) (msgs : List (Option Msg)) :
    (SubMaster.init services poll ia iaf iv sim).frame = -1 ∧
    (SubMaster.update_msgs freq m t msgs).frame = m.frame + 1 ∧
    (SubMaster.update_msgs freq (SubMaster.init services poll ia iaf iv sim) t msgs).frame
      = 0 := by
  refine ⟨rfl, update_msgs_frame freq m t msgs, ?_⟩
  rw [update_msgs_frame]
  rfl

/-- C9: immediately after construction, before any message, every tracked
topic's `valid` flag is true (line 196 sets it explicitly), so `all_valid`
-- the validity conjunct of `all_checks` -- is true over never-received
topics; this despite a fresh envelope defaulting `valid = false`. -/
theorem c9_initial_valid (services : List String) (poll ia iaf iv : Option (List String))
    (sim : Bool) (s : String) (schema : String → SchemaKind) (now : Nat)
    (hs : s ∈ services) :
    (SubMaster.init services poll ia iaf iv sim).valid s = true ∧
    SubMaster.all_valid (SubMaster.init services poll ia iaf iv sim) none = true ∧
    new_message schema now none none =
      Except.ok { valid := false, logMonoTime := now, payload := none } := by
  refine ⟨rfl, ?_, rfl⟩
  exact List.all_eq_true.mpr fun x _ => rfl

/-- C9 witness. -/
theorem c9_initial_valid_witness :
    (SubMaster.init ["a"] none none none none false).valid "a" = true ∧
    SubMaster.all_valid (SubMaster.init ["a"] none none none none false) none = true ∧
    new_message (fun _ => SchemaKind.structKind) 0 none none =
      Except.ok { valid := false, logMonoTime := 0, payload := none } :=
  c9_initial_valid ["a"] none none none none false "a" (fun _ => SchemaKind.structKind) 0
    (by decide)

/-- C10: drain-all retrieval (raw and decoded) with the wait-for-one mode
enabled still returns an empty list when the first, blocking receive yields
the absent sentinel (empty queue with a receive timeout configured on the
socket): the loop breaks on the sentinel before anything is accumulated. -/
theorem c10_drain_empty (α β : Type) (decode : α → β) :
    drain_sock_raw ({ queue := [], hasTimeout := true } : SubSocket α) true = some [] ∧
    drain_sock decode ({ queue := [], hasTimeout := true } : SubSocket α) true
      = some [] := by
  constructor
  · rw [drain_sock_raw, drainLoopRaw]
    rfl
  · rw [drain_sock, drainLoopDec]
    rfl

/-- C1 counterexample: with the simulation override set and zero messages
received, immediately after the first `update_msgs` (at monotonic time 1 s,
registry frequency 20 Hz) the per-topic `alive` flag is FALSE: the
simulation override only fills the ignore lists, and the staleness test
`(1 - 0) < 10/20` still runs and fails. This refutes "every tracked topic
reports alive=true ... immediately after the first update()". -/
theorem c1_counterexample :
    (SubMaster.update_msgs (fun _ => 20)
      (SubMaster.init ["a"] none none none none true) 1 []).frame = 0 ∧
    (SubMaster.update_msgs (fun _ => 20)
      (SubMaster.init ["a"] none none none none true) 1 []).alive "a" = false := by
  constructor
  · rw [update_msgs_frame]
    rfl
  · rw [update_msgs_alive_mem (fun _ => 20)
        (SubMaster.init ["a"] none none none none true) 1 [] "a" (by decide),
      aliveVal_pos _ _ _ _ (by norm_num)]
    simp only [decide_eq_false_iff_not]
    show ¬ ((1 : ℚ) - 0 < 10 / 20)
    norm_num

/-- C1 (amended): with the simulation override set at construction, after
the first `update()` every tracked topic reports `freqOk = true` even with
zero messages received, and the aggregate `all_alive` and `all_freq_ok` are
true (every topic is on both ignore lists, so all are excluded from the
reductions); the per-topic `alive` flag, however, is still computed from
staleness and is not forced true. -/
theorem c1_simulation_first_update (services : List String)
    (poll ia iaf iv : Option (List String)) (freq : String → ℚ) (t : ℚ)
    (msgs : List (Option Msg)) (s : String) (hs : s ∈ services) :
    (SubMaster.update_msgs freq (SubMaster.init services poll ia iaf iv true) t msgs).freq_ok s
      = true ∧
    SubMaster.all_alive
      (SubMaster.update_msgs freq (SubMaster.init services poll ia iaf iv true) t msgs) none
      = true ∧
    SubMaster.all_freq_ok freq
      (SubMaster.update_msgs freq (SubMaster.init services poll ia iaf iv true) t msgs) none
      = true := by
  have hserv : (SubMaster.init services poll ia iaf iv true).services = services := rfl
  have hia : (SubMaster.init services poll ia iaf iv true).ignore_average_freq
      = services := rfl
  have hial : (SubMaster.init services poll ia iaf iv true).ignore_alive = services := rfl
  refine ⟨?_, ?_, ?_⟩
  · rw [update_msgs_freq_ok_mem freq _ t msgs s (by rw [hserv]; exact hs)]
    exact freqOkVal_of_ignore_avg freq _ s (by rw [midState_ignore_avg, hia]; exact hs)
  · apply all_alive_of_ignore_all
    intro x hx
    rw [update_msgs_ignore_alive, hial]
    rw [update_msgs_services, hserv] at hx
    exact hx
  · apply all_freq_ok_of_ignore_all
    intro x hx
    rw [update_msgs_ignore_alive, hial]
    rw [update_msgs_services, hserv] at hx
    exact hx

/-- C1 witness. -/
theorem c1_simulation_first_update_witness :
    (SubMaster.update_msgs (fun _ => 20)
      (SubMaster.init ["a"] none none none none true) 1 []).freq_ok "a" = true ∧
    SubMaster.all_alive (SubMaster.update_msgs (fun _ => 20)
      (SubMaster.init ["a"] none none none none true) 1 []) none = true ∧
    SubMaster.all_freq_ok (fun _ => 20) (SubMaster.update_msgs (fun _ => 20)
      (SubMaster.init ["a"] none none none none true) 1 []) none = true :=
  c1_simulation_first_update ["a"] none none none none (fun _ => 20) 1 [] "a" (by decide)

/-- C2 counterexample: a 20 Hz topic placed in the alive-ignore set still
gets its per-topic `alive` flag computed from staleness: after one update at
monotonic time 1 s with no messages it is FALSE, refuting "the topic's
per-topic alive flag is true". -/
theorem c2_counterexample :
    "a" ∈ (SubMaster.update_msgs (fun _ => 20)
      (SubMaster.init ["a"] none (some ["a"]) none none false) 1 []).ignore_alive ∧
    (SubMaster.update_msgs (fun _ => 20)
      (SubMaster.init ["a"] none (some ["a"]) none none false) 1 []).alive "a" = false := by
  constructor
  · rw [update_msgs_ignore_alive]
    decide
  · rw [update_msgs_alive_mem (fun _ => 20)
        (SubMaster.init ["a"] none (some ["a"]) none none false) 1 [] "a" (by decide),
      aliveVal_pos _ _ _ _ (by norm_num)]
    simp only [decide_eq_false_iff_not]
    show ¬ ((1 : ℚ) - 0 < 10 / 20)
    norm_num

/-- C2 (amended): a topic in the alive-ignore set is excluded from
`all_alive`'s reduction (its `alive` flag has no effect on the result), but
its per-topic `alive` flag is still computed from staleness and can be
false; a topic in the rate-ignore set has its per-topic `freqOk` forced to
true by every update and is excluded from `all_freq_ok`'s reduction; a
topic in the validity-ignore set is excluded from `all_valid`'s reduction. -/
theorem c2_ignore_sets (freq : String → ℚ) (m : SubMaster) (sl : Option (List String))
    (s : String) (b : Bool) (t : ℚ) (msgs : List (Option Msg)) :
    (s ∈ m.ignore_alive →
      SubMaster.all_alive { m with alive := upd m.alive s b } sl
        = SubMaster.all_alive m sl) ∧
    (s ∈ m.ignore_average_freq → s ∈ m.services →
      (SubMaster.update_msgs freq m t msgs).freq_ok s = true) ∧
    (s ∈ m.ignore_average_freq →
      SubMaster.all_freq_ok freq { m with freq_ok := upd m.freq_ok s b } sl
        = SubMaster.all_freq_ok freq m sl) ∧
    (s ∈ m.ignore_valid →
      SubMaster.all_valid { m with valid := upd m.valid s b } sl
        = SubMaster.all_valid m sl) := by
  refine ⟨fun h => all_alive_upd m sl s b h, fun h hsv => ?_,
    fun h => all_freq_ok_upd freq m sl s b h, fun h => all_valid_upd m sl s b h⟩
  rw [update_msgs_freq_ok_mem freq m t msgs s hsv]
  exact freqOkVal_of_ignore_avg freq _ s (by rw [midState_ignore_avg]; exact h)

/-- C2 witness. -/
theorem c2_ignore_sets_witness :
    (SubMaster.all_alive { ignoreAllState with alive := upd ignoreAllState.alive "a" false }
        none = SubMaster.all_alive ignoreAllState none) ∧
    ((SubMaster.update_msgs (fun _ => 20) ignoreAllState 1 []).freq_ok "a" = true) ∧
    (SubMaster.all_freq_ok (fun _ => 20)
        { ignoreAllState with freq_ok := upd ignoreAllState.freq_ok "a" false } none
      = SubMaster.all_freq_ok (fun _ => 20) ignoreAllState none) ∧
    (SubMaster.all_valid { ignoreAllState with valid := upd ignoreAllState.valid "a" false }
        none = SubMaster.all_valid ignoreAllState none) :=
  ⟨(c2_ignore_sets (fun _ => 20) ignoreAllState none "a" false 1 []).1 (by decide),
   (c2_ignore_sets (fun _ => 20) ignoreAllState none "a" false 1 []).2.1 (by decide)
     (by decide),
   (c2_ignore_sets (fun _ => 20) ignoreAllState none "a" false 1 []).2.2.1 (by decide),
   (c2_ignore_sets (fun _ => 20) ignoreAllState none "a" false 1 []).2.2.2 (by decide)⟩

/-- C3 counterexample: a topic with registry frequency `1e-6` Hz (positive,
but not above the code's `1e-5` threshold) that has received a message
(recvTime = 2·10^6 > 0), is polled, and is on no ignore list: per the claim,
average-rate checking applies and — the history being the single delta
2·10^6, whose mean is not below `1/(0.9·f) = 10^7/9` — `freqOk` should be
false; the code instead takes the `f ≤ 1e-5` branch and reports true. -/
theorem c3_counterexample :
    tinyFreqMsgState.freq_ok "a" = true ∧
    0 < tinyFreqMsgState.recv_time "a" ∧
    (0 : ℚ) < 1/1000000 ∧
    "a" ∉ tinyFreqMsgState.non_polled_services ∧
    "a" ∉ tinyFreqMsgState.ignore_average_freq ∧
    "a" ∉ tinyFreqMsgState.ignore_alive ∧
    tinyFreqMsgState.recv_dts "a" ≠ [] ∧
    ¬ ((tinyFreqMsgState.recv_dts "a").sum / ((tinyFreqMsgState.recv_dts "a").length : ℚ)
        < 1 / ((9/10) * (1/1000000))) := by
  have hdts : tinyFreqMsgState.recv_dts "a" = [2000000] := by
    unfold tinyFreqMsgState
    rw [update_msgs_recv_dts]
    show dequeAppend AVG_FREQ_HISTORY [] ((2000000 : ℚ) - 0) = [2000000]
    norm_num [dequeAppend, AVG_FREQ_HISTORY]
  have hrt : tinyFreqMsgState.recv_time "a" = 2000000 := by
    unfold tinyFreqMsgState
    rw [update_msgs_recv_time]
    rfl
  refine ⟨?_, ?_, by norm_num, ?_, ?_, ?_, ?_, ?_⟩
  · unfold tinyFreqMsgState
    rw [update_msgs_freq_ok_mem (fun _ => 1/1000000)
      (SubMaster.init ["a"] none none none none false) 2000000
      [some (Msg.mk "a" 5 true)] "a" (by decide)]
    unfold freqOkVal
    rw [if_neg (by norm_num)]
  · rw [hrt]
    norm_num
  · unfold tinyFreqMsgState
    rw [update_msgs_non_polled]
    decide
  · unfold tinyFreqMsgState
    rw [update_msgs_ignore_avg]
    decide
  · unfold tinyFreqMsgState
    rw [update_msgs_ignore_alive]
    decide
  · rw [hdts]
    simp
  · rw [hdts]
    simp only [List.sum_cons, List.sum_nil, List.length_singleton, Nat.cast_one, add_zero]
    norm_num

/-- C3 (amended, thresholds `> 1e-5` in place of `> 0`): after each
recompute, for every tracked topic, `freq_ok` equals the spec-side value
`freqOkSpec` evaluated on the post-recompute state: average-rate checking
applies iff `recvTime > 1e-5` and `f > 1e-5` and the topic is polled and on
neither the rate-ignore nor the alive-ignore list; when it applies,
`freqOk = (mean of history) < 1/(0.9·f)` for a non-empty history and false
for an empty one; when it does not apply (including `f ≤ 1e-5`), `freqOk`
is true. -/
theorem c3_freq_ok_spec (freq : String → ℚ) (m : SubMaster) (t : ℚ)
    (msgs : List (Option Msg)) (s : String) (hs : s ∈ m.services) :
    (SubMaster.update_msgs freq m t msgs).freq_ok s =
      freqOkSpec freq (SubMaster.update_msgs freq m t msgs) s := by
  rw [update_msgs_freq_ok_mem freq m t msgs s hs, freqOkVal_eq_spec]
  apply freqOkSpec_congr
  · rw [update_msgs_recv_time]
  · rw [update_msgs_recv_dts]
  · rw [update_msgs_non_polled, midState_non_polled]
  · rw [update_msgs_ignore_avg, midState_ignore_avg]
  · rw [update_msgs_ignore_alive, midState_ignore_alive]

/-- C3 witness. -/
theorem c3_freq_ok_spec_witness :
    (SubMaster.update_msgs (fun _ => 20) (SubMaster.init ["a"] none none none none false)
      (1/20) [some (Msg.mk "a" 0 true)]).freq_ok "a" =
    freqOkSpec (fun _ => 20)
      (SubMaster.update_msgs (fun _ => 20) (SubMaster.init ["a"] none none none none false)
        (1/20) [some (Msg.mk "a" 0 true)]) "a" :=
  c3_freq_ok_spec (fun _ => 20) (SubMaster.init ["a"] none none none none false) (1/20)
    [some (Msg.mk "a" 0 true)] "a" (by decide)

/-- C7: starting from construction, after any sequence of update ticks every
topic's inter-arrival history holds at most 100 entries; and an update
delivering a message to a topic whose history already holds 100 entries
appends the new delta and evicts the oldest entry (head) of the prior 100. -/
theorem c7_history_bound (freq : String → ℚ) (services : List String)
    (poll ia iaf iv : Option (List String)) (sim : Bool)
    (steps : List (ℚ × List (Option Msg))) (s : String)
    (m : SubMaster) (t : ℚ) (msg : Msg)
    (h : (m.recv_dts msg.which).length = 100) :
    ((runUpdates freq (SubMaster.init services poll ia iaf iv sim) steps).recv_dts s).length
      ≤ 100 ∧
    (SubMaster.update_msgs freq m t [some msg]).recv_dts msg.which =
      (m.recv_dts msg.which).tail ++ [t - m.recv_time msg.which] := by
  constructor
  · exact runUpdates_dts_le freq _ steps
      (fun s2 => by show (([] : List ℚ)).length ≤ 100; decide) s
  · exact update_msgs_single_evict freq m t msg h

/-- C7 witness. -/
theorem c7_history_bound_witness :
    ((runUpdates (fun _ => 20) (SubMaster.init ["a"] none none none none false) []).recv_dts
      "a").length ≤ 100 ∧
    (SubMaster.update_msgs (fun _ => 20) fullHistoryState 1
        [some (Msg.mk "a" 0 true)]).recv_dts (Msg.mk "a" 0 true).which =
      (fullHistoryState.recv_dts (Msg.mk "a" 0 true).which).tail ++
        [1 - fullHistoryState.recv_time (Msg.mk "a" 0 true).which] :=
  ⟨(c7_history_bound (fun _ => 20) ["a"] none none none none false [] "a"
      fullHistoryState 1 (Msg.mk "a" 0 true) (by decide)).1,
   (c7_history_bound (fun _ => 20) ["a"] none none none none false [] "a"
      fullHistoryState 1 (Msg.mk "a" 0 true) (by decide)).2⟩

/-- C8 counterexample: a topic with registry frequency `1e-6` Hz (positive,
not in the alive-ignore set), no messages, updated at monotonic time
2·10^7 s: per the claim `alive` should be `(2·10^7 − 0) < 10/f = 10^7`,
i.e. false; the code instead takes the `f ≤ 1e-5` branch and reports
`alive = true`. -/
theorem c8_counterexample :
    tinyFreqNoMsgState.alive "a" = true ∧
    (0 : ℚ) < 1/1000000 ∧
    "a" ∉ tinyFreqNoMsgState.ignore_alive ∧
    ¬ ((20000000 : ℚ) - tinyFreqNoMsgState.recv_time "a" < 10 / (1/1000000)) := by
  have hrt : tinyFreqNoMsgState.recv_time "a" = 0 := by
    unfold tinyFreqNoMsgState
    rw [update_msgs_recv_time]
    rfl
  refine ⟨?_, by norm_num, ?_, ?_⟩
  · unfold tinyFreqNoMsgState
    rw [update_msgs_alive_mem (fun _ => 1/1000000)
      (SubMaster.init ["a"] none none none none false) 20000000 [] "a" (by decide)]
    unfold aliveVal
    rw [if_neg (by norm_num)]
  · unfold tinyFreqNoMsgState
    rw [update_msgs_ignore_alive]
    decide
  · rw [hrt]
    norm_num

/-- C8 (amended, threshold `> 1e-5` in place of `> 0`): for every tracked
topic with registry frequency above `1e-5` (whether or not it is in the
alive-ignore set — the hypothesis mirrors the claim), after a recompute at
monotonic time `now`, `alive = (now − recvTime) < 10/f`; in particular a
20 Hz topic with no messages received has `alive` true on updates at
monotonic times below 0.5 s and false at and after 0.5 s. -/
theorem c8_alive_spec (freq : String → ℚ) (m : SubMaster) (t : ℚ)
    (msgs : List (Option Msg)) (s : String) (hs : s ∈ m.services)
    (hf : 1/100000 < freq s) (hig : s ∉ m.ignore_alive) :
    ((SubMaster.update_msgs freq m t msgs).alive s =
      aliveSpec freq t (SubMaster.update_msgs freq m t msgs) s) ∧
    (∀ (services2 : List String) (s2 : String) (t2 : ℚ), s2 ∈ services2 →
      (SubMaster.update_msgs (fun _ => 20)
        (SubMaster.init services2 none none none none false) t2 []).alive s2 =
        decide (t2 < 1/2)) := by
  constructor
  · rw [update_msgs_alive_mem freq m t msgs s hs]
    unfold aliveVal aliveSpec
    rw [if_pos hf, update_msgs_recv_time]
  · intro services2 s2 t2 hs2
    rw [update_msgs_alive_mem (fun _ => 20)
      (SubMaster.init services2 none none none none false) t2 [] s2
      (show s2 ∈ (SubMaster.init services2 none none none none false).services from hs2)]
    unfold aliveVal
    rw [if_pos (by norm_num)]
    apply decide_eq_decide.mpr
    show (t2 - (0 : ℚ) < 10 / 20) ↔ (t2 < 1/2)
    norm_num

/-- C8 witness. -/
theorem c8_alive_spec_witness :
    ((SubMaster.update_msgs (fun _ => 20) (SubMaster.init ["a"] none none none none false)
        1 []).alive "a" =
      aliveSpec (fun _ => 20) 1
        (SubMaster.update_msgs (fun _ => 20) (SubMaster.init ["a"] none none none none false)
          1 []) "a") ∧
    ((SubMaster.update_msgs (fun _ => 20) (SubMaster.init ["a"] none none none none false)
        (1/4) []).alive "a" = decide ((1/4 : ℚ) < 1/2)) :=
  ⟨(c8_alive_spec (fun _ => 20) (SubMaster.init ["a"] none none none none false) 1 [] "a"
      (by decide) (by norm_num) (by decide)).1,
   (c8_alive_spec (fun _ => 20) (SubMaster.init ["a"] none none none none false) 1 [] "a"
      (by decide) (by norm_num) (by decide)).2 ["a"] "a" (1/4) (by decide)⟩
